import Mathlib

/-!
# Verification of the FinBrain in-memory finance API (`src/main.py`)

Shallow embedding of the data model and request handlers of `src/main.py`.
The three module-level dictionaries (`users_db`, `sessions`, `accounts_db`)
become insertion-ordered association lists inside a state record `St`;
each handler becomes a pure function threading that state explicitly and
returning `Except HTTPError result` for the `HTTPException` raises.
Python floats (account balances) are modelled as rationals, timestamps
(`datetime.utcnow()`) as a natural-number clock passed in by the caller,
and `uuid.uuid4()` as a caller-supplied fresh identifier.
-/

set_option linter.unusedVariables false

namespace FinBrain

/-! ## Association lists modelling Python dicts

Python 3.7+ dicts preserve insertion order; assignment to an existing key
overwrites in place, assignment to a fresh key appends, `del` removes.
-/

/-- Lookup of a key in an insertion-ordered association list (`k in d` / `d[k]`). -/
def alookup {κ α : Type} [DecidableEq κ] : List (κ × α) → κ → Option α
  | [], _ => none
  | p :: m, k => if p.1 = k then some p.2 else alookup m k

/-- Python dict assignment `d[k] = v`: overwrite in place when the key is
present, append at the end otherwise. -/
def aset {κ α : Type} [DecidableEq κ] (m : List (κ × α)) (k : κ) (v : α) : List (κ × α) :=
  if (alookup m k).isSome then m.map (fun p => if p.1 = k then (k, v) else p)
  else m ++ [(k, v)]

/-- Python dict deletion `del d[k]`. -/
def aerase {κ α : Type} [DecidableEq κ] (m : List (κ × α)) (k : κ) : List (κ × α) :=
  m.filter (fun p => decide (p.1 ≠ k))

/-- In-place mutation of the value stored at a key, as in `d[k].append(x)`
or `d[k] += v` (the key is known to be present at every use site). -/
def amodify {κ α : Type} [DecidableEq κ] (m : List (κ × α)) (k : κ) (f : α → α) :
    List (κ × α) :=
  m.map (fun p => if p.1 = k then (p.1, f p.2) else p)

/-! ## Python string primitives used by `get_current_user` and `login` -/

/-- Python `s.startswith(pre)`. -/
def pyStartsWith (s pre : String) : Bool :=
  pre.data.isPrefixOf s.data

/-- Left-to-right, non-overlapping replacement of every occurrence of a
nonempty pattern, as performed by Python `str.replace`; after a match the
scan resumes right after the replaced occurrence.  The fuel argument (always
instantiated with the length of the scanned list, which bounds the number of
steps) makes the recursion structural. -/
def replaceListAux (pat repl : List Char) : Nat → List Char → List Char
  | _, [] => []
  | 0, l => l
  | fuel + 1, c :: rest =>
    if pat.isPrefixOf (c :: rest) then
      repl ++ replaceListAux pat repl fuel ((c :: rest).drop pat.length)
    else
      c :: replaceListAux pat repl fuel rest

/-- Python `s.replace(pat, repl)` for a nonempty pattern (the only use in
the source is `authorization.replace("Bearer ", "")`; the degenerate empty
pattern, which Python treats specially, never occurs). -/
def pyReplace (s pat repl : String) : String :=
  if pat.data = [] then s
  else ⟨replaceListAux pat.data repl.data s.data.length s.data⟩

/-- Decimal digit character, as produced when a number is interpolated into
an f-string. -/
def decDigit (d : Nat) : Char := Char.ofNat (48 + d)

/-- Decimal digit string of a natural number (most significant first); the
fuel argument (instantiated with `n + 1`, which bounds the recursion depth)
makes the recursion structural. -/
def natDigitsAux : Nat → Nat → List Char
  | 0, _ => []
  | fuel + 1, n =>
    if n < 10 then [decDigit n]
    else natDigitsAux fuel (n / 10) ++ [decDigit (n % 10)]

/-- Decimal rendering of the numeric clock value, modelling the
interpolation of `datetime.utcnow().timestamp()` into the token f-string. -/
def natStr (n : Nat) : String := ⟨natDigitsAux (n + 1) n⟩

/-! ## Data model -/

/-- The `AccountType` enum of `src/main.py`. -/
inductive AccountType : Type
  | checking
  | savings
  | credit_card
  | loan
  | investment
deriving DecidableEq, Repr

/-- A record of `users_db`: email, plaintext password, full name, officer
flag, creation timestamp. -/
structure User : Type where
  email : String
  password : String
  full_name : String
  is_officer : Bool
  created_at : Nat
deriving DecidableEq, Repr

/-- A record of `accounts_db`. -/
structure Account : Type where
  id : String
  user_email : String
  account_type : AccountType
  account_name : String
  institution : String
  balance : ℚ
  credit_limit : Option ℚ
  interest_rate : Option ℚ
  minimum_payment : Option ℚ
  created_at : Nat
  updated_at : Nat
deriving DecidableEq, Repr

/-- The request body of `POST /api/v1/accounts` (`AccountCreate`). -/
structure AccountCreate : Type where
  account_type : AccountType
  account_name : String
  institution : String
  balance : ℚ
  credit_limit : Option ℚ
  interest_rate : Option ℚ
  minimum_payment : Option ℚ
deriving DecidableEq, Repr

/-- The partial-update body of `PUT /api/v1/accounts/{id}` (`AccountUpdate`).
Pydantic's `dict(exclude_unset=True)` distinguishes an absent field from a
field explicitly set: the outer `Option` is `none` for an absent field.  For
the three optional account fields a provided value may itself be `null`,
hence the nested `Option`.  A provided `balance` is modelled as a number:
a literal `balance: null` would store `None` and make the subsequent
`AccountResponse(**account)` validation fail, which is outside the
behaviour the specification describes. -/
structure AccountUpdate : Type where
  balance : Option ℚ
  credit_limit : Option (Option ℚ)
  interest_rate : Option (Option ℚ)
  minimum_payment : Option (Option ℚ)
deriving DecidableEq, Repr

/-- An HTTP error response (`HTTPException(status_code, detail)`). -/
structure HTTPError : Type where
  status_code : Nat
  detail : String
deriving DecidableEq, Repr

/-- The whole mutable state of the process: the three module-level
dictionaries of `src/main.py`. -/
structure St : Type where
  users_db : List (String × User)
  sessions : List (String × String)
  accounts_db : List (String × Account)
deriving DecidableEq, Repr

/-- The aggregate returned by `GET /api/v1/accounts/summary`
(`AccountsSummary`). -/
structure Summary : Type where
  total_assets : ℚ
  total_liabilities : ℚ
  net_worth : ℚ
  accounts_by_type : List (AccountType × List Account)
  total_by_type : List (AccountType × ℚ)
deriving DecidableEq, Repr

/-! ## Handlers -/

/-- The `get_current_user` dependency: parses the `Authorization` header and
resolves the bearer token against `sessions`.  Mirrors the source line by
line, including the falsy check on an empty header and the
`authorization.replace("Bearer ", "")` token extraction (which removes every
occurrence of the pattern, not only the leading one). -/
def get_current_user (sessions : List (String × String))
    (authorization : Option String) : Except HTTPError String :=
  match authorization with
  | none => Except.error ⟨401, "Not authenticated"⟩
  | some auth =>
    if auth = "" ∨ pyStartsWith auth "Bearer " = false then
      Except.error ⟨401, "Not authenticated"⟩
    else
      let token := pyReplace auth "Bearer " ""
      match alookup sessions token with
      | none => Except.error ⟨401, "Invalid token"⟩
      | some email => Except.ok email

/-- `POST /api/v1/auth/register`. -/
def register (st : St) (email password full_name : String) (is_officer : Bool)
    (now : Nat) : Except HTTPError User × St :=
  if (alookup st.users_db email).isSome then
    (Except.error ⟨400, "Email already registered"⟩, st)
  else
    let u : User := ⟨email, password, full_name, is_officer, now⟩
    (Except.ok u, { st with users_db := aset st.users_db email u })

/-- The session token generated on login:
`f"token-{user.email}-{datetime.utcnow().timestamp()}"`. -/
def loginToken (email : String) (now : Nat) : String :=
  "token-" ++ email ++ "-" ++ natStr now

/-- `POST /api/v1/auth/login`: returns the access token and the user record
on success. -/
def login (st : St) (email password : String) (now : Nat) :
    Except HTTPError (String × User) × St :=
  match alookup st.users_db email with
  | none => (Except.error ⟨401, "Invalid credentials"⟩, st)
  | some u =>
    if u.password ≠ password then (Except.error ⟨401, "Invalid credentials"⟩, st)
    else
      let token := loginToken email now
      (Except.ok (token, u),
       { st with sessions := aset st.sessions token email })

/-- `POST /api/v1/accounts`: the fresh `uuid.uuid4()` identifier is supplied
by the caller. -/
def create_account (st : St) (current_user : String) (spec : AccountCreate)
    (account_id : String) (now : Nat) : Except HTTPError Account × St :=
  let account_data : Account :=
    ⟨account_id, current_user, spec.account_type, spec.account_name,
     spec.institution, spec.balance, spec.credit_limit, spec.interest_rate,
     spec.minimum_payment, now, now⟩
  (Except.ok account_data,
   { st with accounts_db := aset st.accounts_db account_id account_data })

/-- The list comprehension
`[a for a in accounts_db.values() if a["user_email"] == current_user]`. -/
def userAccounts (st : St) (current_user : String) : List Account :=
  (st.accounts_db.map Prod.snd).filter (fun a => decide (a.user_email = current_user))

/-- `GET /api/v1/accounts`. -/
def list_accounts (st : St) (current_user : String) :
    Except HTTPError (List Account) × St :=
  (Except.ok (userAccounts st current_user), st)

/-- The membership test `account_type in ["checking", "savings", "investment"]`. -/
def isAssetType (t : AccountType) : Bool :=
  match t with
  | .checking | .savings | .investment => true
  | _ => false

/-- The membership test `account_type in ["credit_card", "loan"]`. -/
def isLiabilityType (t : AccountType) : Bool :=
  match t with
  | .credit_card | .loan => true
  | _ => false

/-- The running accumulator of the summary loop. -/
structure SummaryAcc : Type where
  total_assets : ℚ
  total_liabilities : ℚ
  accounts_by_type : List (AccountType × List Account)
  total_by_type : List (AccountType × ℚ)
deriving DecidableEq, Repr

/-- One iteration of the `for account in user_accounts` loop of
`get_accounts_summary`. -/
def summaryStep (s : SummaryAcc) (a : Account) : SummaryAcc :=
  let t := a.account_type
  let s :=
    if alookup s.accounts_by_type t = none then
      { s with accounts_by_type := aset s.accounts_by_type t [],
               total_by_type := aset s.total_by_type t 0 }
    else s
  let s := { s with accounts_by_type := amodify s.accounts_by_type t (fun l => l ++ [a]) }
  if isAssetType t then
    { s with total_assets := s.total_assets + a.balance,
             total_by_type := amodify s.total_by_type t (fun v => v + a.balance) }
  else if isLiabilityType t then
    { s with total_liabilities := s.total_liabilities + |a.balance|,
             total_by_type := amodify s.total_by_type t (fun v => v + |a.balance|) }
  else s

/-- `GET /api/v1/accounts/summary`. -/
def get_accounts_summary (st : St) (current_user : String) :
    Except HTTPError Summary × St :=
  let user_accounts := userAccounts st current_user
  let acc := user_accounts.foldl summaryStep ⟨0, 0, [], []⟩
  (Except.ok ⟨acc.total_assets, acc.total_liabilities,
              acc.total_assets - acc.total_liabilities,
              acc.accounts_by_type, acc.total_by_type⟩, st)

/-- `GET /api/v1/accounts/{account_id}`. -/
def get_account (st : St) (current_user : String) (account_id : String) :
    Except HTTPError Account × St :=
  match alookup st.accounts_db account_id with
  | none => (Except.error ⟨404, "Account not found"⟩, st)
  | some account =>
    if account.user_email ≠ current_user then
      (Except.error ⟨403, "Not authorized to access this account"⟩, st)
    else
      (Except.ok account, st)

/-- The `for field, value in update_dict.items(): account[field] = value`
loop followed by the `updated_at` refresh; `update_dict` enumerates the set
fields of `AccountUpdate` in declaration order. -/
def applyUpdate (a : Account) (u : AccountUpdate) (now : Nat) : Account :=
  let a := match u.balance with
    | none => a
    | some v => { a with balance := v }
  let a := match u.credit_limit with
    | none => a
    | some v => { a with credit_limit := v }
  let a := match u.interest_rate with
    | none => a
    | some v => { a with interest_rate := v }
  let a := match u.minimum_payment with
    | none => a
    | some v => { a with minimum_payment := v }
  { a with updated_at := now }

/-- `PUT /api/v1/accounts/{account_id}`. -/
def update_account (st : St) (current_user : String) (account_id : String)
    (update_data : AccountUpdate) (now : Nat) : Except HTTPError Account × St :=
  match alookup st.accounts_db account_id with
  | none => (Except.error ⟨404, "Account not found"⟩, st)
  | some account =>
    if account.user_email ≠ current_user then
      (Except.error ⟨403, "Not authorized to update this account"⟩, st)
    else
      let account := applyUpdate account update_data now
      (Except.ok account,
       { st with accounts_db := aset st.accounts_db account_id account })

/-- `DELETE /api/v1/accounts/{account_id}`. -/
def delete_account (st : St) (current_user : String) (account_id : String) :
    Except HTTPError String × St :=
  match alookup st.accounts_db account_id with
  | none => (Except.error ⟨404, "Account not found"⟩, st)
  | some account =>
    if account.user_email ≠ current_user then
      (Except.error ⟨403, "Not authorized to delete this account"⟩, st)
    else
      (Except.ok "Account deleted successfully",
       { st with accounts_db := aerase st.accounts_db account_id })

/-! ## Summary specification helpers -/

/-- The owner's accounts of one type, in store order. -/
def typeFilter (l : List Account) (t : AccountType) : List Account :=
  l.filter (fun a => decide (a.account_type = t))

/-- The amount an account contributes to its type bucket and to the grand
totals: raw balance for asset types, absolute value for liability types. -/
def contribution (a : Account) : ℚ :=
  if isAssetType a.account_type then a.balance else |a.balance|

/-- Sum of raw balances over the asset-type accounts of a list. -/
def assetSum (l : List Account) : ℚ :=
  ((l.filter (fun a => isAssetType a.account_type)).map (fun a => a.balance)).sum

/-- Sum of absolute balances over the liability-type accounts of a list. -/
def liabSum (l : List Account) : ℚ :=
  ((l.filter (fun a => isLiabilityType a.account_type)).map (fun a => |a.balance|)).sum

/-- Sum of bucket contributions over a list of accounts. -/
def contribSum (l : List Account) : ℚ := (l.map contribution).sum

/-! ## Concrete fixtures used by witness theorems -/

/-- A registered user for concrete runs. -/
def wUser : User := ⟨"a@b.c", "pw", "", false, 0⟩

/-- A stored account for concrete runs. -/
def wAccount : Account :=
  ⟨"id1", "u@x", AccountType.checking, "Everyday", "Bank", 100, none, none, none, 0, 0⟩

/-- A small store with one user and one account. -/
def wState : St := ⟨[("a@b.c", wUser)], [], [("id1", wAccount)]⟩

/-! ## Association-list lemmas -/

theorem alookup_append {κ α : Type} [DecidableEq κ] (m m' : List (κ × α)) (k : κ) :
    alookup (m ++ m') k =
      match alookup m k with
      | some v => some v
      | none => alookup m' k := by
  induction m with
  | nil => simp [alookup]
  | cons p m ih =>
    by_cases h : p.1 = k <;> simp [alookup, h, ih]

theorem alookup_overwrite {κ α : Type} [DecidableEq κ] (m : List (κ × α)) (k : κ) (v : α) :
    alookup (m.map (fun p => if p.1 = k then (k, v) else p)) k =
      if (alookup m k).isSome then some v else none := by
  induction m with
  | nil => simp [alookup]
  | cons p m ih =>
    by_cases h : p.1 = k <;> simp [alookup, h, ih]

theorem alookup_overwrite_ne {κ α : Type} [DecidableEq κ] (m : List (κ × α)) (k k' : κ) (v : α)
    (h : k' ≠ k) :
    alookup (m.map (fun p => if p.1 = k then (k, v) else p)) k' = alookup m k' := by
  induction m with
  | nil => simp [alookup]
  | cons p m ih =>
    by_cases hp : p.1 = k
    · have h1 : ¬ (k = k') := fun he => h he.symm
      have h2 : ¬ (p.1 = k') := by rw [hp]; exact h1
      simp only [List.map_cons, if_pos hp, alookup, if_neg h1, if_neg h2, ih]
    · by_cases hp' : p.1 = k'
      · simp only [List.map_cons, if_neg hp, alookup, if_pos hp']
      · simp only [List.map_cons, if_neg hp, alookup, if_neg hp', ih]

theorem alookup_aset_self {κ α : Type} [DecidableEq κ] (m : List (κ × α)) (k : κ) (v : α) :
    alookup (aset m k v) k = some v := by
  unfold aset
  by_cases h : (alookup m k).isSome
  · simp [h, alookup_overwrite]
  · simp only [h, if_false, Bool.false_eq_true, if_neg, alookup_append]
    have hn : alookup m k = none := by
      cases halookup : alookup m k <;> simp_all
    simp [hn, alookup]

theorem alookup_aset_ne {κ α : Type} [DecidableEq κ] (m : List (κ × α)) (k k' : κ) (v : α)
    (h : k' ≠ k) :
    alookup (aset m k v) k' = alookup m k' := by
  unfold aset
  by_cases hs : (alookup m k).isSome
  · simp [hs, alookup_overwrite_ne m k k' v h]
  · have : k ≠ k' := fun he => h he.symm
    simp only [hs, Bool.false_eq_true, if_neg, alookup_append, alookup, this, if_false]
    cases halookup : alookup m k' <;> simp

theorem alookup_aerase_self {κ α : Type} [DecidableEq κ] (m : List (κ × α)) (k : κ) :
    alookup (aerase m k) k = none := by
  induction m with
  | nil => simp [aerase, alookup]
  | cons p m ih =>
    by_cases hp : p.1 = k
    · simpa [aerase, List.filter_cons, hp] using ih
    · simpa [aerase, List.filter_cons, hp, alookup] using ih

theorem alookup_aerase_ne {κ α : Type} [DecidableEq κ] (m : List (κ × α)) (k k' : κ)
    (h : k' ≠ k) :
    alookup (aerase m k) k' = alookup m k' := by
  induction m with
  | nil => simp [aerase, alookup]
  | cons p m ih =>
    have hkk : ¬ (k = k') := fun he => h he.symm
    by_cases hp : p.1 = k
    · have hp' : ¬ (p.1 = k') := by rw [hp]; exact hkk
      simpa [aerase, List.filter_cons, hp, alookup, hp', hkk] using ih
    · by_cases hp' : p.1 = k'
      · simp [aerase, List.filter_cons, hp, alookup, hp', hkk, h]
      · simpa [aerase, List.filter_cons, hp, alookup, hp', hkk, h] using ih

theorem alookup_amodify {κ α : Type} [DecidableEq κ] (m : List (κ × α)) (k k' : κ) (f : α → α) :
    alookup (amodify m k f) k' =
      if k' = k then Option.map f (alookup m k') else alookup m k' := by
  induction m with
  | nil => simp [amodify, alookup]
  | cons p m ih =>
    by_cases hk : k' = k
    · subst hk
      by_cases hp : p.1 = k'
      · simp [amodify, alookup, hp]
      · simpa [amodify, alookup, hp] using ih
    · have hkk : ¬ (k = k') := fun he => hk he.symm
      by_cases hp : p.1 = k
      · have hp' : ¬ (p.1 = k') := by rw [hp]; exact hkk
        simpa [amodify, alookup, hp, hp', hk, hkk] using ih
      · by_cases hp' : p.1 = k'
        · simp [amodify, alookup, hp, hp', hk, hkk]
        · simpa [amodify, alookup, hp, hp', hk, hkk] using ih

theorem alookup_mem {κ α : Type} [DecidableEq κ] {m : List (κ × α)} {k : κ} {v : α}
    (h : alookup m k = some v) : (k, v) ∈ m := by
  induction m with
  | nil => simp [alookup] at h
  | cons p m ih =>
    by_cases hp : p.1 = k
    · simp only [alookup, if_pos hp, Option.some.injEq] at h
      have hpe : p = (k, v) := by
        cases p
        simp_all
      exact List.mem_cons.mpr (Or.inl hpe.symm)
    · simp only [alookup, if_neg hp] at h
      exact List.mem_cons_of_mem _ (ih h)

/-! ## String lemmas -/

theorem pyStartsWith_append (pre s : String) : pyStartsWith (pre ++ s) pre = true := by
  simp [pyStartsWith, List.isPrefixOf_iff_prefix, List.prefix_append]

theorem append_ne_empty_of_left (pre s : String) (h : pre.data ≠ []) : pre ++ s ≠ "" := by
  intro he
  apply h
  have : (pre ++ s).data = ("" : String).data := by rw [he]
  simp at this
  exact this.1

/-- If some character of the pattern never occurs in the scanned list, the
replacement scan leaves the list unchanged. -/
theorem replaceListAux_no_occ (pat repl : List Char) (fuel : Nat) (l : List Char)
    (c : Char) (hc : c ∈ pat) (hn : c ∉ l) :
    replaceListAux pat repl fuel l = l := by
  induction fuel generalizing l with
  | zero => cases l <;> rfl
  | succ fuel ih =>
    cases l with
    | nil => rfl
    | cons d rest =>
      have hpre : pat.isPrefixOf (d :: rest) = false := by
        rw [Bool.eq_false_iff]
        intro htrue
        have : pat <+: d :: rest := List.isPrefixOf_iff_prefix.mp htrue
        exact hn (this.subset hc)
      rw [replaceListAux, hpre]
      simp only [Bool.false_eq_true, if_false]
      rw [ih rest (fun hm => hn (List.mem_cons_of_mem _ hm))]

/-- Scanning a list that begins with the (nonempty) pattern replaces that
occurrence and resumes right after it. -/
theorem replaceListAux_strip (p : Char) (ps repl : List Char) (fuel : Nat) (l : List Char) :
    replaceListAux (p :: ps) repl (fuel + 1) (p :: ps ++ l) =
      repl ++ replaceListAux (p :: ps) repl fuel l := by
  have hpre : (p :: ps).isPrefixOf (p :: (ps ++ l)) = true := by
    rw [ List.isPrefixOf_iff_prefix]
    exact (p :: ps).prefix_append l |>.trans (by simp)
  rw [show p :: ps ++ l = p :: (ps ++ l) by simp]
  rw [replaceListAux, hpre]
  simp only [if_true]
  rw [List.length_cons, List.drop_succ_cons, List.drop_left]

/-- Every character produced by the decimal renderer is a digit. -/
theorem natDigitsAux_digits (fuel : Nat) : ∀ (n : Nat), ∀ c ∈ natDigitsAux fuel n,
    ∃ d, d < 10 ∧ c = decDigit d := by
  induction fuel with
  | zero => intro n c hc; simp [natDigitsAux] at hc
  | succ fuel ih =>
    intro n c hc
    rw [natDigitsAux] at hc
    by_cases h : n < 10
    · rw [if_pos h] at hc
      simp at hc
      exact ⟨n, h, hc⟩
    · rw [if_neg h] at hc
      rcases List.mem_append.mp hc with hm | hm
      · exact ih _ c hm
      · simp at hm
        exact ⟨n % 10, Nat.mod_lt _ (by omega), hm⟩

theorem decDigit_ne_space : ∀ d, d < 10 → decDigit d ≠ ' ' := by decide

theorem decDigit_ne_dash : ∀ d, d < 10 → decDigit d ≠ '-' := by decide

theorem decDigit_inj : ∀ d1, d1 < 10 → ∀ d2, d2 < 10 → decDigit d1 = decDigit d2 → d1 = d2 := by
  decide

/-- The fuel argument of the digit renderer is irrelevant once it exceeds
the rendered number. -/
theorem natDigitsAux_irrel (f1 : Nat) : ∀ (f2 n : Nat), n < f1 → n < f2 →
    natDigitsAux f1 n = natDigitsAux f2 n := by
  induction f1 with
  | zero => intro f2 n h1 h2; omega
  | succ f1 ih =>
    intro f2 n h1 h2
    cases f2 with
    | zero => omega
    | succ f2 =>
      rw [natDigitsAux, natDigitsAux]
      by_cases h : n < 10
      · rw [if_pos h, if_pos h]
      · rw [if_neg h, if_neg h]
        have hdiv : n / 10 < n := Nat.div_lt_self (by omega) (by omega)
        rw [ih f2 (n / 10) (by omega) (by omega)]

/-- Recurrence for the canonical-fuel digit renderer. -/
theorem natDigits_rec (n : Nat) : natDigitsAux (n + 1) n =
    if n < 10 then [decDigit n]
    else natDigitsAux (n / 10 + 1) (n / 10) ++ [decDigit (n % 10)] := by
  rw [natDigitsAux]
  by_cases h : n < 10
  · rw [if_pos h, if_pos h]
  · rw [if_neg h, if_neg h]
    have hdiv : n / 10 < n := Nat.div_lt_self (by omega) (by omega)
    rw [natDigitsAux_irrel n (n / 10 + 1) (n / 10) (by omega) (by omega)]

theorem natDigits_ne_nil (n : Nat) : natDigitsAux (n + 1) n ≠ [] := by
  rw [natDigits_rec]
  by_cases h : n < 10
  · rw [if_pos h]; simp
  · rw [if_neg h]; simp

/-- Distinct numbers render to distinct digit strings. -/
theorem natDigits_inj (n1 : Nat) : ∀ n2, natDigitsAux (n1 + 1) n1 = natDigitsAux (n2 + 1) n2 →
    n1 = n2 := by
  induction n1 using Nat.strong_induction_on with
  | _ n1 ih =>
    intro n2 h
    rw [natDigits_rec n1, natDigits_rec n2] at h
    by_cases h1 : n1 < 10 <;> by_cases h2 : n2 < 10
    · rw [if_pos h1, if_pos h2] at h
      simp at h
      exact decDigit_inj n1 h1 n2 h2 h
    · rw [if_pos h1, if_neg h2] at h
      have hlen := congrArg List.length h
      simp only [List.length_append, List.length_cons, List.length_nil] at hlen
      have hge : (natDigitsAux (n2 / 10 + 1) (n2 / 10)).length ≥ 1 :=
        List.length_pos.mpr (natDigits_ne_nil (n2 / 10))
      omega
    · rw [if_neg h1, if_pos h2] at h
      have hlen := congrArg List.length h
      simp only [List.length_append, List.length_cons, List.length_nil] at hlen
      have hge : (natDigitsAux (n1 / 10 + 1) (n1 / 10)).length ≥ 1 :=
        List.length_pos.mpr (natDigits_ne_nil (n1 / 10))
      omega
    · rw [if_neg h1, if_neg h2] at h
      have hrev := congrArg List.reverse h
      simp only [List.reverse_append, List.reverse_cons, List.reverse_nil,
        List.nil_append, List.singleton_append, List.cons.injEq] at hrev
      obtain ⟨hlast, hrest⟩ := hrev
      have hmod : n1 % 10 = n2 % 10 :=
        decDigit_inj _ (Nat.mod_lt _ (by omega)) _ (Nat.mod_lt _ (by omega)) hlast
      have hdivlt : n1 / 10 < n1 := Nat.div_lt_self (by omega) (by omega)
      have hdigits : natDigitsAux (n1 / 10 + 1) (n1 / 10) =
          natDigitsAux (n2 / 10 + 1) (n2 / 10) := by
        have := congrArg List.reverse hrest
        simpa using this
      have hdiv : n1 / 10 = n2 / 10 := ih (n1 / 10) hdivlt (n2 / 10) hdigits
      omega

/-! ## Token lemmas -/

/-- Extracting the token from a well-formed header: when the bearer prefix
is followed by a space-free token, `replace("Bearer ", "")` returns exactly
that token. -/
theorem pyReplace_bearer (tok : String) (hsp : ' ' ∉ tok.data) :
    pyReplace ("Bearer " ++ tok) "Bearer " "" = tok := by
  have hpat : ("Bearer " : String).data = 'B' :: ['e', 'a', 'r', 'e', 'r', ' '] := rfl
  have hdata : ("Bearer " ++ tok).data = ("Bearer " : String).data ++ tok.data :=
    String.data_append _ _
  unfold pyReplace
  rw [if_neg (by rw [hpat]; simp)]
  have hlen : ("Bearer " ++ tok).data.length = (6 + tok.data.length) + 1 := by
    rw [hdata, List.length_append, hpat]
    simp
    omega
  rw [hlen, hdata, hpat]
  rw [replaceListAux_strip 'B' ['e', 'a', 'r', 'e', 'r', ' '] [] (6 + tok.data.length) tok.data]
  rw [replaceListAux_no_occ _ _ _ _ ' ' (by decide) hsp]
  simp

/-- Every character of a digit string is a digit, hence not a space. -/
theorem natStr_no_space (n : Nat) : ' ' ∉ (natStr n).data := by
  intro hmem
  obtain ⟨d, hd, he⟩ := natDigitsAux_digits (n + 1) n ' ' hmem
  exact decDigit_ne_space d hd he.symm

theorem natStr_no_dash (n : Nat) : '-' ∉ (natStr n).data := by
  intro hmem
  obtain ⟨d, hd, he⟩ := natDigitsAux_digits (n + 1) n '-' hmem
  exact decDigit_ne_dash d hd he.symm

/-- A login token for a space-free email contains no space character. -/
theorem loginToken_no_space (email : String) (now : Nat) (h : ' ' ∉ email.data) :
    ' ' ∉ (loginToken email now).data := by
  unfold loginToken
  simp only [String.data_append, List.mem_append]
  intro hmem
  rcases hmem with (hmem | hmem) | hmem
  · rcases hmem with hmem | hmem
    · exact absurd hmem (by decide)
    · exact h hmem
  · exact absurd hmem (by decide)
  · exact natStr_no_space now hmem

/-- Splitting at the last occurrence of a separator: if neither leading part
contains the separator, the decomposition is unique. -/
theorem sep_head_inj (sep : Char) : ∀ (r1 r2 a b : List Char), sep ∉ r1 → sep ∉ r2 →
    r1 ++ sep :: a = r2 ++ sep :: b → r1 = r2 ∧ a = b := by
  intro r1
  induction r1 with
  | nil =>
    intro r2 a b h1 h2 h
    cases r2 with
    | nil =>
      simp at h
      exact ⟨rfl, h⟩
    | cons c r2 =>
      simp at h
      exact absurd (h.1 ▸ List.mem_cons_self c r2) (by simpa [h.1] using h2)
  | cons c r1 ih =>
    intro r2 a b h1 h2 h
    cases r2 with
    | nil =>
      simp at h
      exact absurd (h.1 ▸ List.mem_cons_self c r1) (by simpa [h.1] using h1)
    | cons e r2 =>
      simp only [List.cons_append, List.cons.injEq] at h
      obtain ⟨hce, hrest⟩ := h
      have hr1 : sep ∉ r1 := fun hm => h1 (List.mem_cons_of_mem _ hm)
      have hr2 : sep ∉ r2 := fun hm => h2 (List.mem_cons_of_mem _ hm)
      obtain ⟨heq, hab⟩ := ih r2 a b hr1 hr2 hrest
      exact ⟨by rw [hce, heq], hab⟩

/-- Two login tokens coincide only when both the email and the timestamp
coincide: the timestamp is the digit run after the last dash, and digit
strings determine the number. -/
theorem loginToken_inj (e1 e2 : String) (n1 n2 : Nat)
    (h : loginToken e1 n1 = loginToken e2 n2) : e1 = e2 ∧ n1 = n2 := by
  have hdata := congrArg String.data h
  simp only [loginToken, String.data_append] at hdata
  simp only [List.append_assoc] at hdata
  have hcancel := List.append_cancel_left hdata
  have hsplit : e1.data ++ '-' :: (natStr n1).data = e2.data ++ '-' :: (natStr n2).data := by
    simpa using hcancel
  have hrev := congrArg List.reverse hsplit
  simp only [List.reverse_append, List.reverse_cons] at hrev
  have hrev' : (natStr n1).data.reverse ++ '-' :: e1.data.reverse =
      (natStr n2).data.reverse ++ '-' :: e2.data.reverse := by
    simpa using hrev
  have hnod1 : '-' ∉ (natStr n1).data.reverse := by
    rw [List.mem_reverse]
    exact natStr_no_dash n1
  have hnod2 : '-' ∉ (natStr n2).data.reverse := by
    rw [List.mem_reverse]
    exact natStr_no_dash n2
  obtain ⟨hd, he⟩ := sep_head_inj '-' _ _ _ _ hnod1 hnod2 hrev'
  have hdig : (natStr n1).data = (natStr n2).data := by
    have := congrArg List.reverse hd
    simpa using this
  have hn : n1 = n2 := natDigits_inj n1 n2 (by simpa [natStr] using hdig)
  have hedata : e1.data = e2.data := by
    have := congrArg List.reverse he
    simpa using this
  have he12 : e1 = e2 := by
    cases e1
    cases e2
    simp only [String.data] at hedata
    rw [hedata]
  exact ⟨he12, hn⟩

/-! ## Summary-aggregation lemmas -/

theorem asset_liability_cases (t : AccountType) :
    isAssetType t = true ∨ isLiabilityType t = true := by
  cases t <;> simp [isAssetType, isLiabilityType]

theorem liability_not_asset {t : AccountType} (h : isLiabilityType t = true) :
    isAssetType t = false := by
  cases t <;> simp_all [isAssetType, isLiabilityType]

theorem asset_not_liability {t : AccountType} (h : isAssetType t = true) :
    isLiabilityType t = false := by
  cases t <;> simp_all [isAssetType, isLiabilityType]

theorem assetSum_cons (a : Account) (l : List Account) :
    assetSum (a :: l) = (if isAssetType a.account_type then a.balance else 0) + assetSum l := by
  by_cases h : isAssetType a.account_type <;> simp [assetSum, List.filter_cons, h]

theorem liabSum_cons (a : Account) (l : List Account) :
    liabSum (a :: l) =
      (if isLiabilityType a.account_type then |a.balance| else 0) + liabSum l := by
  by_cases h : isLiabilityType a.account_type <;> simp [liabSum, List.filter_cons, h]

theorem typeFilter_cons (a : Account) (l : List Account) (t : AccountType) :
    typeFilter (a :: l) t =
      if a.account_type = t then a :: typeFilter l t else typeFilter l t := by
  by_cases h : a.account_type = t <;> simp [typeFilter, List.filter_cons, h]

theorem contribSum_cons (a : Account) (l : List Account) :
    contribSum (a :: l) = contribution a + contribSum l := by
  simp [contribSum]

/-- Effect of one summary-loop iteration on the four accumulator
components, assuming the two bucket maps have the same keys. -/
theorem summaryStep_char (s : SummaryAcc) (a : Account)
    (hsync : ∀ t, alookup s.accounts_by_type t = none ↔ alookup s.total_by_type t = none) :
    ((summaryStep s a).total_assets =
        s.total_assets + (if isAssetType a.account_type then a.balance else 0))
    ∧ ((summaryStep s a).total_liabilities =
        s.total_liabilities + (if isLiabilityType a.account_type then |a.balance| else 0))
    ∧ (∀ t, alookup (summaryStep s a).accounts_by_type t =
        if t = a.account_type then some ((alookup s.accounts_by_type t).getD [] ++ [a])
        else alookup s.accounts_by_type t)
    ∧ (∀ t, alookup (summaryStep s a).total_by_type t =
        if t = a.account_type then some ((alookup s.total_by_type t).getD 0 + contribution a)
        else alookup s.total_by_type t) := by
  unfold summaryStep
  by_cases hnew : alookup s.accounts_by_type a.account_type = none
  · have hnewT : alookup s.total_by_type a.account_type = none := (hsync _).mp hnew
    simp only [if_pos hnew]
    rcases asset_liability_cases a.account_type with hA | hL
    · have hL' := asset_not_liability hA
      simp only [hA, if_true]
      refine ⟨by simp [hA], by simp [hL'], ?_, ?_⟩
      · intro t
        rw [alookup_amodify]
        by_cases ht : t = a.account_type
        · simp [ht, alookup_aset_self, hnew]
        · simp [ht, alookup_aset_ne _ _ _ _ ht]
      · intro t
        rw [alookup_amodify]
        by_cases ht : t = a.account_type
        · simp [ht, alookup_aset_self, hnewT, contribution, hA]
        · simp [ht, alookup_aset_ne _ _ _ _ ht]
    · have hA' := liability_not_asset hL
      simp only [hA', Bool.false_eq_true, if_false, hL, if_true]
      refine ⟨by simp [hA'], by simp [hL], ?_, ?_⟩
      · intro t
        rw [alookup_amodify]
        by_cases ht : t = a.account_type
        · simp [ht, alookup_aset_self, hnew]
        · simp [ht, alookup_aset_ne _ _ _ _ ht]
      · intro t
        rw [alookup_amodify]
        by_cases ht : t = a.account_type
        · simp [ht, alookup_aset_self, hnewT, contribution, hA']
        · simp [ht, alookup_aset_ne _ _ _ _ ht]
  · obtain ⟨cur, hcur⟩ := Option.ne_none_iff_exists'.mp hnew
    have hcurT : ∃ curT, alookup s.total_by_type a.account_type = some curT := by
      rcases h : alookup s.total_by_type a.account_type with _ | curT
      · exact absurd ((hsync _).mpr h) hnew
      · exact ⟨curT, rfl⟩
    obtain ⟨curT, hcurT⟩ := hcurT
    simp only [if_neg hnew]
    rcases asset_liability_cases a.account_type with hA | hL
    · have hL' := asset_not_liability hA
      simp only [hA, if_true]
      refine ⟨by simp [hA], by simp [hL'], ?_, ?_⟩
      · intro t
        rw [alookup_amodify]
        by_cases ht : t = a.account_type
        · simp [ht, hcur]
        · simp [ht]
      · intro t
        rw [alookup_amodify]
        by_cases ht : t = a.account_type
        · simp [ht, hcurT, contribution, hA]
        · simp [ht]
    · have hA' := liability_not_asset hL
      simp only [hA', Bool.false_eq_true, if_false, hL, if_true]
      refine ⟨by simp [hA'], by simp [hL], ?_, ?_⟩
      · intro t
        rw [alookup_amodify]
        by_cases ht : t = a.account_type
        · simp [ht, hcur]
        · simp [ht]
      · intro t
        rw [alookup_amodify]
        by_cases ht : t = a.account_type
        · simp [ht, hcurT, contribution, hA']
        · simp [ht]

/-- One loop iteration keeps the two bucket maps keyed identically. -/
theorem summaryStep_sync (s : SummaryAcc) (a : Account)
    (hsync : ∀ t, alookup s.accounts_by_type t = none ↔ alookup s.total_by_type t = none) :
    ∀ t, alookup (summaryStep s a).accounts_by_type t = none ↔
      alookup (summaryStep s a).total_by_type t = none := by
  obtain ⟨-, -, h3, h4⟩ := summaryStep_char s a hsync
  intro t
  rw [h3 t, h4 t]
  by_cases ht : t = a.account_type <;> simp [ht, hsync t]

/-- Characterization of the whole summary loop, for an arbitrary starting
accumulator whose two bucket maps have the same keys. -/
theorem summaryFold_char (l : List Account) : ∀ (s : SummaryAcc),
    (∀ t, alookup s.accounts_by_type t = none ↔ alookup s.total_by_type t = none) →
    ((l.foldl summaryStep s).total_assets = s.total_assets + assetSum l)
    ∧ ((l.foldl summaryStep s).total_liabilities = s.total_liabilities + liabSum l)
    ∧ (∀ t, alookup (l.foldl summaryStep s).accounts_by_type t =
        match alookup s.accounts_by_type t with
        | some cur => some (cur ++ typeFilter l t)
        | none => if typeFilter l t = [] then none else some (typeFilter l t))
    ∧ (∀ t, alookup (l.foldl summaryStep s).total_by_type t =
        match alookup s.total_by_type t with
        | some cur => some (cur + contribSum (typeFilter l t))
        | none => if typeFilter l t = [] then none
                  else some (contribSum (typeFilter l t))) := by
  induction l with
  | nil =>
    intro s hsync
    refine ⟨by simp [assetSum], by simp [liabSum], ?_, ?_⟩
    · intro t
      cases h : alookup s.accounts_by_type t <;> simp [typeFilter, h]
    · intro t
      cases h : alookup s.total_by_type t <;> simp [typeFilter, contribSum, h]
  | cons a l ih =>
    intro s hsync
    simp only [List.foldl_cons]
    obtain ⟨h1, h2, h3, h4⟩ := summaryStep_char s a hsync
    obtain ⟨g1, g2, g3, g4⟩ := ih (summaryStep s a) (summaryStep_sync s a hsync)
    refine ⟨?_, ?_, ?_, ?_⟩
    · rw [g1, h1, assetSum_cons]; ring
    · rw [g2, h2, liabSum_cons]; ring
    · intro t
      rw [g3 t, h3 t, typeFilter_cons]
      by_cases ht : t = a.account_type
      · have ht' : a.account_type = t := ht.symm
        simp only [if_pos ht, if_pos ht']
        cases hc : alookup s.accounts_by_type t <;> simp
      · have ht' : ¬ (a.account_type = t) := fun he => ht he.symm
        simp only [if_neg ht, if_neg ht']
    · intro t
      rw [g4 t, h4 t, typeFilter_cons]
      by_cases ht : t = a.account_type
      · have ht' : a.account_type = t := ht.symm
        simp only [if_pos ht, if_pos ht']
        cases hc : alookup s.total_by_type t <;> simp [contribSum_cons] <;> ring
      · have ht' : ¬ (a.account_type = t) := fun he => ht he.symm
        simp only [if_neg ht, if_neg ht']

/-! ## Claims -/

/-- C1: for every owner and every store state, `get_accounts_summary`
returns a summary whose `total_assets` is the sum of raw balances of the
owner's asset-type accounts (checking, savings, investment), whose
`total_liabilities` is the sum of absolute balances of the owner's
liability-type accounts (credit card, loan), whose `net_worth` is their
difference, in which every account of the owner appears in
`accounts_by_type` under its own type with `total_by_type` accumulating the
same contributions, and in which a type with no accounts for the owner is
absent as a key from both maps. -/
theorem C1_summary_aggregation (st : St) (owner : String) :
    ∃ s, get_accounts_summary st owner = (Except.ok s, st)
    ∧ s.total_assets = assetSum (userAccounts st owner)
    ∧ s.total_liabilities = liabSum (userAccounts st owner)
    ∧ s.net_worth = s.total_assets - s.total_liabilities
    ∧ (∀ a ∈ userAccounts st owner, ∃ grp,
        alookup s.accounts_by_type a.account_type = some grp ∧ a ∈ grp)
    ∧ (∀ t, alookup s.accounts_by_type t =
        if typeFilter (userAccounts st owner) t = [] then none
        else some (typeFilter (userAccounts st owner) t))
    ∧ (∀ t, alookup s.total_by_type t =
        if typeFilter (userAccounts st owner) t = [] then none
        else some (contribSum (typeFilter (userAccounts st owner) t))) := by
  obtain ⟨h1, h2, h3, h4⟩ :=
    summaryFold_char (userAccounts st owner) ⟨0, 0, [], []⟩ (by intro t; simp [alookup])
  have h3' : ∀ t, alookup
      ((userAccounts st owner).foldl summaryStep ⟨0, 0, [], []⟩).accounts_by_type t =
      if typeFilter (userAccounts st owner) t = [] then none
      else some (typeFilter (userAccounts st owner) t) := by
    intro t
    have := h3 t
    simpa [alookup] using this
  have h4' : ∀ t, alookup
      ((userAccounts st owner).foldl summaryStep ⟨0, 0, [], []⟩).total_by_type t =
      if typeFilter (userAccounts st owner) t = [] then none
      else some (contribSum (typeFilter (userAccounts st owner) t)) := by
    intro t
    have := h4 t
    simpa [alookup] using this
  refine ⟨_, rfl, ?_, ?_, rfl, ?_, h3', h4'⟩
  · simpa using h1
  · simpa using h2
  · intro a ha
    have hmem : a ∈ typeFilter (userAccounts st owner) a.account_type := by
      simp [typeFilter, List.mem_filter, ha]
    have hne : typeFilter (userAccounts st owner) a.account_type ≠ [] :=
      List.ne_nil_of_mem hmem
    refine ⟨typeFilter (userAccounts st owner) a.account_type, ?_, hmem⟩
    rw [h3' a.account_type, if_neg hne]

/-- Witness for C1 at the one-account store: the account is one of the
owner's accounts and appears under its own type in the returned summary. -/
theorem C1_summary_aggregation_witness :
    ∃ s, get_accounts_summary wState "u@x" = (Except.ok s, wState)
      ∧ ∃ grp, alookup s.accounts_by_type AccountType.checking = some grp
        ∧ wAccount ∈ grp := by
  obtain ⟨s, hret, -, -, -, happ, -, -⟩ := C1_summary_aggregation wState "u@x"
  have hmem : wAccount ∈ userAccounts wState "u@x" := by decide
  obtain ⟨grp, hg, hmem2⟩ := happ wAccount hmem
  exact ⟨s, hret, grp, hg, hmem2⟩

/-- Bridge between the Boolean header condition tested by the code and the
prefix relation. -/
theorem auth_cond_iff (s : String) :
    (s = "" ∨ pyStartsWith s "Bearer " = false) ↔ ¬ ("Bearer ".data <+: s.data) := by
  constructor
  · rintro (rfl | hb) <;> intro hp
    · have : ("Bearer " : String).data = [] := List.prefix_nil.mp hp
      simp at this
    · rw [pyStartsWith, Bool.eq_false_iff] at hb
      exact hb ( List.isPrefixOf_iff_prefix.mpr hp)
  · intro hnp
    right
    rw [pyStartsWith, Bool.eq_false_iff]
    intro htrue
    exact hnp ( List.isPrefixOf_iff_prefix.mp htrue)

/-- C2 (amended): authentication fails with 401 "Not authenticated" exactly
when the header is absent or does not start with "Bearer "; otherwise the
token is the header with every occurrence of "Bearer " removed (Python
`replace`, not a prefix strip), and the call fails with 401 "Invalid token"
exactly when that string is not a key of the session store, succeeding with
the stored email exactly when it is. -/
theorem C2_auth_trichotomy (sessions : List (String × String))
    (authorization : Option String) :
    (get_current_user sessions authorization = Except.error ⟨401, "Not authenticated"⟩
      ↔ authorization = none
        ∨ ∃ s, authorization = some s ∧ ¬ ("Bearer ".data <+: s.data))
    ∧ (∀ e, get_current_user sessions authorization = Except.ok e
      ↔ ∃ s, authorization = some s ∧ "Bearer ".data <+: s.data
          ∧ alookup sessions (pyReplace s "Bearer " "") = some e)
    ∧ (get_current_user sessions authorization = Except.error ⟨401, "Invalid token"⟩
      ↔ ∃ s, authorization = some s ∧ "Bearer ".data <+: s.data
          ∧ alookup sessions (pyReplace s "Bearer " "") = none) := by
  rcases authorization with _ | s
  · refine ⟨?_, ?_, ?_⟩ <;> simp [get_current_user]
  · by_cases hp : ("Bearer ".data <+: s.data)
    · have hcond : ¬ (s = "" ∨ pyStartsWith s "Bearer " = false) := by
        rw [auth_cond_iff]
        simpa using hp
      simp only [get_current_user, if_neg hcond]
      cases halook : alookup sessions (pyReplace s "Bearer " "") with
      | none => refine ⟨?_, ?_, ?_⟩ <;> simp [hp, halook]
      | some e => refine ⟨?_, ?_, ?_⟩ <;> simp [hp, halook]
    · have hcond : s = "" ∨ pyStartsWith s "Bearer " = false := (auth_cond_iff s).mpr hp
      simp only [get_current_user, if_pos hcond]
      refine ⟨?_, ?_, ?_⟩ <;> simp [hp]

/-- Counterexample to C2 as stated: with session store {"Bearer x": u} the
header "Bearer Bearer x" is exactly "Bearer " followed by the stored token
"Bearer x", yet authentication fails with "Invalid token", because the code
removes every occurrence of "Bearer " and looks up "x". -/
theorem C2_counterexample :
    "Bearer Bearer x" = "Bearer " ++ "Bearer x"
    ∧ alookup [("Bearer x", "user@example.com")] "Bearer x" = some "user@example.com"
    ∧ get_current_user [("Bearer x", "user@example.com")] (some "Bearer Bearer x")
        = Except.error ⟨401, "Invalid token"⟩ := by
  refine ⟨rfl, by decide, by rfl⟩

/-- C4: a successful login immediately authenticates back to the same
email: presenting the returned token as "Bearer " followed by the token
yields exactly the email that logged in.  The email is assumed space-free,
which the `EmailStr` validation of the register and login request bodies
guarantees. -/
theorem C4_login_roundtrip (st : St) (email password : String) (now : Nat) (u : User)
    (hu : alookup st.users_db email = some u) (hp : u.password = password)
    (hsp : ' ' ∉ email.data) :
    ∃ st2, login st email password now = (Except.ok (loginToken email now, u), st2)
      ∧ get_current_user st2.sessions (some ("Bearer " ++ loginToken email now))
          = Except.ok email := by
  refine ⟨{ st with sessions := aset st.sessions (loginToken email now) email }, ?_, ?_⟩
  · simp [login, hu, hp]
  · have htok : ' ' ∉ (loginToken email now).data := loginToken_no_space email now hsp
    have hne : ("Bearer " ++ loginToken email now) ≠ "" :=
      append_ne_empty_of_left _ _ (by decide)
    have hstart : pyStartsWith ("Bearer " ++ loginToken email now) "Bearer " = true :=
      pyStartsWith_append _ _
    have hcond : ¬ (("Bearer " ++ loginToken email now) = ""
        ∨ pyStartsWith ("Bearer " ++ loginToken email now) "Bearer " = false) := by
      rintro (he | hb)
      · exact hne he
      · rw [hstart] at hb
        cases hb
    simp only [get_current_user, if_neg hcond]
    rw [pyReplace_bearer _ htok]
    rw [alookup_aset_self]

/-- Witness for C4: concrete one-user store, login then authenticate. -/
theorem C4_login_roundtrip_witness :
    ∃ st2, login wState "a@b.c" "pw" 3 = (Except.ok (loginToken "a@b.c" 3, wUser), st2)
      ∧ get_current_user st2.sessions (some ("Bearer " ++ loginToken "a@b.c" 3))
          = Except.ok "a@b.c" :=
  C4_login_roundtrip wState "a@b.c" "pw" 3 wUser (by decide) rfl (by decide)

/-- C7 (amended): when every token already in the session store was issued
by a login at a strictly earlier timestamp, the token generated now is
absent from the store, and recording the new session appends a new entry
instead of overwriting one. -/
theorem C7_token_fresh (st : St) (now : Nat) (email password : String) (u : User)
    (hse : ∀ tok e, (tok, e) ∈ st.sessions → ∃ e2 n2, n2 < now ∧ tok = loginToken e2 n2)
    (hu : alookup st.users_db email = some u) (hp : u.password = password) :
    alookup st.sessions (loginToken email now) = none
    ∧ (login st email password now).2.sessions
        = st.sessions ++ [(loginToken email now, email)] := by
  have hfresh : alookup st.sessions (loginToken email now) = none := by
    cases h : alookup st.sessions (loginToken email now) with
    | none => rfl
    | some e =>
      obtain ⟨e2, n2, hlt, htok⟩ := hse _ _ (alookup_mem h)
      obtain ⟨-, hn⟩ := loginToken_inj email e2 now n2 htok
      omega
  refine ⟨hfresh, ?_⟩
  have hrun : (login st email password now).2.sessions
      = aset st.sessions (loginToken email now) email := by
    simp [login, hu, hp]
  rw [hrun, aset, hfresh]
  simp

/-- Witness for C7 (amended) with one older session in the store. -/
theorem C7_token_fresh_witness :
    alookup [(loginToken "x@y" 1, "x@y")] (loginToken "a@b.c" 2) = none
    ∧ (login ⟨[("a@b.c", wUser)], [(loginToken "x@y" 1, "x@y")], []⟩
        "a@b.c" "pw" 2).2.sessions
      = [(loginToken "x@y" 1, "x@y")] ++ [(loginToken "a@b.c" 2, "a@b.c")] :=
  C7_token_fresh ⟨[("a@b.c", wUser)], [(loginToken "x@y" 1, "x@y")], []⟩ 2 "a@b.c" "pw" wUser
    (by
      intro tok e hm
      simp at hm
      exact ⟨"x@y", 1, by omega, hm.1⟩)
    (by decide) rfl

/-- Counterexample to C7 as stated: two successful logins of the same user
at the same clock reading generate the same token, so the second recording
overwrites the existing session entry and the store does not grow. -/
theorem C7_counterexample :
    (login ⟨[("a@b.c", wUser)], [], []⟩ "a@b.c" "pw" 5).1
        = Except.ok (loginToken "a@b.c" 5, wUser)
    ∧ (login (login ⟨[("a@b.c", wUser)], [], []⟩ "a@b.c" "pw" 5).2 "a@b.c" "pw" 5).1
        = Except.ok (loginToken "a@b.c" 5, wUser)
    ∧ (login ⟨[("a@b.c", wUser)], [], []⟩ "a@b.c" "pw" 5).2.sessions
        = [(loginToken "a@b.c" 5, "a@b.c")]
    ∧ (login (login ⟨[("a@b.c", wUser)], [], []⟩ "a@b.c" "pw" 5).2 "a@b.c" "pw" 5).2.sessions
        = [(loginToken "a@b.c" 5, "a@b.c")] := by
  refine ⟨by rfl, by rfl, by decide, by decide⟩

/-- C8: a login with an unregistered email and a login with a registered
email but wrong password return identical results — the same 401 "Invalid
credentials" error and an unchanged store — so the caller cannot tell which
field was wrong. -/
theorem C8_login_no_leak (st : St) (e1 p1 e2 p2 : String) (n1 n2 : Nat) (u : User)
    (h1 : alookup st.users_db e1 = none)
    (h2 : alookup st.users_db e2 = some u) (h3 : u.password ≠ p2) :
    login st e1 p1 n1 = login st e2 p2 n2
    ∧ login st e1 p1 n1 = (Except.error ⟨401, "Invalid credentials"⟩, st) := by
  have ha : login st e1 p1 n1 = (Except.error ⟨401, "Invalid credentials"⟩, st) := by
    unfold login
    rw [h1]
  have hb : login st e2 p2 n2 = (Except.error ⟨401, "Invalid credentials"⟩, st) := by
    simp [login, h2, h3]
  exact ⟨ha.trans hb.symm, ha⟩

/-- Witness for C8: unknown email versus wrong password on a concrete store. -/
theorem C8_login_no_leak_witness :
    login wState "nobody@x" "p" 1 = login wState "a@b.c" "wrong" 2
    ∧ login wState "nobody@x" "p" 1 = (Except.error ⟨401, "Invalid credentials"⟩, wState) :=
  C8_login_no_leak wState "nobody@x" "p" "a@b.c" "wrong" 1 2 wUser
    (by decide) (by decide) (by decide)

/-- C5: registering a fresh email stores a record stamped with the current
timestamp and returns it; a second registration of the same email fails
with the Conflict error, leaves the store untouched, and the stored record
is still the one from the first registration. -/
theorem C5_register_conflict (st : St) (email password full_name : String)
    (off : Bool) (n1 : Nat)
    (hfree : alookup st.users_db email = none) :
    ∃ st1, register st email password full_name off n1
        = (Except.ok ⟨email, password, full_name, off, n1⟩, st1)
      ∧ alookup st1.users_db email = some ⟨email, password, full_name, off, n1⟩
      ∧ ∀ p2 f2 o2 n2, register st1 email p2 f2 o2 n2
            = (Except.error ⟨400, "Email already registered"⟩, st1)
          ∧ alookup (register st1 email p2 f2 o2 n2).2.users_db email
            = some ⟨email, password, full_name, off, n1⟩ := by
  refine ⟨{ st with
      users_db := aset st.users_db email ⟨email, password, full_name, off, n1⟩ }, ?_, ?_, ?_⟩
  · simp [register, hfree]
  · exact alookup_aset_self _ _ _
  · intro p2 f2 o2 n2
    have hsome : alookup
        (aset st.users_db email (⟨email, password, full_name, off, n1⟩ : User)) email
        = some ⟨email, password, full_name, off, n1⟩ := alookup_aset_self _ _ _
    have hrun : register
        ({ st with
            users_db := aset st.users_db email ⟨email, password, full_name, off, n1⟩ })
          email p2 f2 o2 n2
        = (Except.error ⟨400, "Email already registered"⟩,
           { st with
              users_db := aset st.users_db email ⟨email, password, full_name, off, n1⟩ }) := by
      simp [register, hsome]
    refine ⟨hrun, ?_⟩
    rw [hrun]
    exact hsome

/-- Witness for C5 on the empty store. -/
theorem C5_register_conflict_witness :
    ∃ st1, register ⟨[], [], []⟩ "n@w.z" "s3cret" "Nat W" true 7
        = (Except.ok ⟨"n@w.z", "s3cret", "Nat W", true, 7⟩, st1)
      ∧ alookup st1.users_db "n@w.z" = some ⟨"n@w.z", "s3cret", "Nat W", true, 7⟩
      ∧ ∀ p2 f2 o2 n2, register st1 "n@w.z" p2 f2 o2 n2
            = (Except.error ⟨400, "Email already registered"⟩, st1)
          ∧ alookup (register st1 "n@w.z" p2 f2 o2 n2).2.users_db "n@w.z"
            = some ⟨"n@w.z", "s3cret", "Nat W", true, 7⟩ :=
  C5_register_conflict ⟨[], [], []⟩ "n@w.z" "s3cret" "Nat W" true 7 (by decide)

/-- C3: updating an account the caller owns with a partial update that
supplies only `balance` stores the new balance, leaves every other field
unchanged, and refreshes `updated_at` to the current clock, which is at
least the previous `updated_at` under a monotone clock; any field left out
of a partial update keeps its prior value, and `updated_at` is refreshed
even by an empty partial update. -/
theorem C3_update_balance_frame (st : St) (caller account_id : String) (a : Account)
    (b : ℚ) (now : Nat)
    (ha : alookup st.accounts_db account_id = some a) (hown : a.user_email = caller)
    (hclock : a.updated_at ≤ now) :
    (∃ a2 st2, update_account st caller account_id ⟨some b, none, none, none⟩ now
        = (Except.ok a2, st2)
      ∧ a2.balance = b
      ∧ a2.id = a.id ∧ a2.user_email = a.user_email
      ∧ a2.account_type = a.account_type ∧ a2.account_name = a.account_name
      ∧ a2.institution = a.institution ∧ a2.credit_limit = a.credit_limit
      ∧ a2.interest_rate = a.interest_rate ∧ a2.minimum_payment = a.minimum_payment
      ∧ a2.created_at = a.created_at
      ∧ a2.updated_at = now ∧ a.updated_at ≤ a2.updated_at
      ∧ alookup st2.accounts_db account_id = some a2)
    ∧ (∀ u : AccountUpdate, ∀ a3 st3,
        update_account st caller account_id u now = (Except.ok a3, st3) →
        a3.updated_at = now
        ∧ (u.balance = none → a3.balance = a.balance)
        ∧ (u.credit_limit = none → a3.credit_limit = a.credit_limit)
        ∧ (u.interest_rate = none → a3.interest_rate = a.interest_rate)
        ∧ (u.minimum_payment = none → a3.minimum_payment = a.minimum_payment)) := by
  have hnot : ¬ a.user_email ≠ caller := fun hne => hne hown
  constructor
  · refine ⟨applyUpdate a ⟨some b, none, none, none⟩ now,
      { st with
        accounts_db :=
          aset st.accounts_db account_id (applyUpdate a ⟨some b, none, none, none⟩ now) },
      ?_, ?_⟩
    · simp [update_account, ha, hnot]
    · simp [applyUpdate, hclock, alookup_aset_self]
  · intro u a3 st3 hrun
    have hrun2 : applyUpdate a u now = a3 := by
      simp [update_account, ha, hnot] at hrun
      exact hrun.1
    subst hrun2
    refine ⟨?_, ?_, ?_, ?_, ?_⟩
    · simp [applyUpdate]
    · intro hb2
      cases hcl : u.credit_limit <;> cases hir : u.interest_rate <;>
        cases hmp : u.minimum_payment <;>
        simp [applyUpdate, hb2, hcl, hir, hmp]
    · intro hcl
      cases hb2 : u.balance <;> cases hir : u.interest_rate <;>
        cases hmp : u.minimum_payment <;>
        simp [applyUpdate, hb2, hcl, hir, hmp]
    · intro hir
      cases hb2 : u.balance <;> cases hcl : u.credit_limit <;>
        cases hmp : u.minimum_payment <;>
        simp [applyUpdate, hb2, hcl, hir, hmp]
    · intro hmp
      cases hb2 : u.balance <;> cases hcl : u.credit_limit <;>
        cases hir : u.interest_rate <;>
        simp [applyUpdate, hb2, hcl, hir, hmp]

/-- Witness for C3: a balance-only update of the concrete stored account. -/
theorem C3_update_balance_frame_witness :
    ∃ a2 st2, update_account wState "u@x" "id1" ⟨some 250, none, none, none⟩ 9
        = (Except.ok a2, st2)
      ∧ a2.balance = 250
      ∧ a2.id = wAccount.id ∧ a2.user_email = wAccount.user_email
      ∧ a2.account_type = wAccount.account_type ∧ a2.account_name = wAccount.account_name
      ∧ a2.institution = wAccount.institution ∧ a2.credit_limit = wAccount.credit_limit
      ∧ a2.interest_rate = wAccount.interest_rate
      ∧ a2.minimum_payment = wAccount.minimum_payment
      ∧ a2.created_at = wAccount.created_at
      ∧ a2.updated_at = 9 ∧ wAccount.updated_at ≤ a2.updated_at
      ∧ alookup st2.accounts_db "id1" = some a2 :=
  (C3_update_balance_frame wState "u@x" "id1" wAccount 250 9
    (by decide) rfl (by decide)).1

/-- C9: the partial-update type carries only the four mutable fields, so a
successful update can never change `id`, `user_email`, `account_type`,
`account_name`, `institution`, or `created_at`; the updated record is what
gets stored, and every other account in the store is untouched. -/
theorem C9_update_only_mutable_fields (st : St) (caller account_id : String)
    (u : AccountUpdate) (now : Nat) (a a2 : Account) (st2 : St)
    (ha : alookup st.accounts_db account_id = some a)
    (hrun : update_account st caller account_id u now = (Except.ok a2, st2)) :
    a2.id = a.id ∧ a2.user_email = a.user_email ∧ a2.account_type = a.account_type
    ∧ a2.account_name = a.account_name ∧ a2.institution = a.institution
    ∧ a2.created_at = a.created_at
    ∧ alookup st2.accounts_db account_id = some a2
    ∧ ∀ id2, id2 ≠ account_id → alookup st2.accounts_db id2 = alookup st.accounts_db id2 := by
  simp only [update_account, ha] at hrun
  by_cases hown : a.user_email ≠ caller
  · rw [if_pos hown] at hrun
    have hfst := congrArg Prod.fst hrun
    simp at hfst
  · rw [if_neg hown] at hrun
    have ha2 : applyUpdate a u now = a2 := by
      have := congrArg Prod.fst hrun
      simpa using this
    have hst2 : ({ st with
        accounts_db := aset st.accounts_db account_id (applyUpdate a u now) } : St)
        = st2 := by
      have := congrArg Prod.snd hrun
      simpa using this
    subst ha2
    have hdb : st2.accounts_db = aset st.accounts_db account_id (applyUpdate a u now) := by
      rw [← hst2]
    refine ⟨?_, ?_, ?_, ?_, ?_, ?_, ?_, ?_⟩
    · cases hb2 : u.balance <;> cases hcl : u.credit_limit <;>
        cases hir : u.interest_rate <;> cases hmp : u.minimum_payment <;>
        simp [applyUpdate, hb2, hcl, hir, hmp]
    · cases hb2 : u.balance <;> cases hcl : u.credit_limit <;>
        cases hir : u.interest_rate <;> cases hmp : u.minimum_payment <;>
        simp [applyUpdate, hb2, hcl, hir, hmp]
    · cases hb2 : u.balance <;> cases hcl : u.credit_limit <;>
        cases hir : u.interest_rate <;> cases hmp : u.minimum_payment <;>
        simp [applyUpdate, hb2, hcl, hir, hmp]
    · cases hb2 : u.balance <;> cases hcl : u.credit_limit <;>
        cases hir : u.interest_rate <;> cases hmp : u.minimum_payment <;>
        simp [applyUpdate, hb2, hcl, hir, hmp]
    · cases hb2 : u.balance <;> cases hcl : u.credit_limit <;>
        cases hir : u.interest_rate <;> cases hmp : u.minimum_payment <;>
        simp [applyUpdate, hb2, hcl, hir, hmp]
    · cases hb2 : u.balance <;> cases hcl : u.credit_limit <;>
        cases hir : u.interest_rate <;> cases hmp : u.minimum_payment <;>
        simp [applyUpdate, hb2, hcl, hir, hmp]
    · rw [hdb]
      exact alookup_aset_self _ _ _
    · intro id2 hne
      rw [hdb]
      exact alookup_aset_ne _ _ _ _ hne

/-- Witness for C9: a concrete update that sets every mutable field still
leaves the six immutable fields unchanged. -/
theorem C9_update_only_mutable_fields_witness :
    (applyUpdate wAccount ⟨some 1, some (some 2), some (some 3), some (some 4)⟩ 9).id
        = wAccount.id
    ∧ (applyUpdate wAccount ⟨some 1, some (some 2), some (some 3), some (some 4)⟩ 9).user_email
        = wAccount.user_email
    ∧ (applyUpdate wAccount ⟨some 1, some (some 2), some (some 3), some (some 4)⟩ 9).account_type
        = wAccount.account_type
    ∧ (applyUpdate wAccount ⟨some 1, some (some 2), some (some 3), some (some 4)⟩ 9).account_name
        = wAccount.account_name
    ∧ (applyUpdate wAccount ⟨some 1, some (some 2), some (some 3), some (some 4)⟩ 9).institution
        = wAccount.institution
    ∧ (applyUpdate wAccount ⟨some 1, some (some 2), some (some 3), some (some 4)⟩ 9).created_at
        = wAccount.created_at := by
  obtain ⟨h1, h2, h3, h4, h5, h6, -, -⟩ :=
    C9_update_only_mutable_fields wState "u@x" "id1"
      ⟨some 1, some (some 2), some (some 3), some (some 4)⟩ 9 wAccount
      (applyUpdate wAccount ⟨some 1, some (some 2), some (some 3), some (some 4)⟩ 9)
      { wState with
        accounts_db :=
          aset wState.accounts_db "id1"
            (applyUpdate wAccount ⟨some 1, some (some 2), some (some 3), some (some 4)⟩ 9) }
      (by decide)
      (by simp [update_account, wState, wAccount, alookup])
  exact ⟨h1, h2, h3, h4, h5, h6⟩

/-- C6: for get, update and delete alike, the NotFound error occurs exactly
when the id is absent from the store, the Forbidden error occurs exactly
when the id is present but owned by a different user, and after a
successful delete a subsequent get of the same id is NotFound for every
caller. -/
theorem C6_crud_access (st : St) (caller account_id : String) (u : AccountUpdate)
    (now : Nat) :
    ((get_account st caller account_id).1 = Except.error ⟨404, "Account not found"⟩
      ↔ alookup st.accounts_db account_id = none)
    ∧ ((get_account st caller account_id).1
        = Except.error ⟨403, "Not authorized to access this account"⟩
      ↔ ∃ a, alookup st.accounts_db account_id = some a ∧ a.user_email ≠ caller)
    ∧ ((update_account st caller account_id u now).1
        = Except.error ⟨404, "Account not found"⟩
      ↔ alookup st.accounts_db account_id = none)
    ∧ ((update_account st caller account_id u now).1
        = Except.error ⟨403, "Not authorized to update this account"⟩
      ↔ ∃ a, alookup st.accounts_db account_id = some a ∧ a.user_email ≠ caller)
    ∧ ((delete_account st caller account_id).1 = Except.error ⟨404, "Account not found"⟩
      ↔ alookup st.accounts_db account_id = none)
    ∧ ((delete_account st caller account_id).1
        = Except.error ⟨403, "Not authorized to delete this account"⟩
      ↔ ∃ a, alookup st.accounts_db account_id = some a ∧ a.user_email ≠ caller)
    ∧ (∀ msg st2, delete_account st caller account_id = (Except.ok msg, st2) →
        ∀ caller2, (get_account st2 caller2 account_id).1
          = Except.error ⟨404, "Account not found"⟩) := by
  cases h : alookup st.accounts_db account_id with
  | none =>
    refine ⟨?_, ?_, ?_, ?_, ?_, ?_, ?_⟩ <;>
      simp [get_account, update_account, delete_account, h]
  | some a =>
    by_cases ho : a.user_email ≠ caller
    · refine ⟨?_, ?_, ?_, ?_, ?_, ?_, ?_⟩ <;>
        simp [get_account, update_account, delete_account, h, ho]
    · refine ⟨?_, ?_, ?_, ?_, ?_, ?_, ?_⟩ <;>
        simp [get_account, update_account, delete_account, h, ho, alookup_aerase_self]

/-- Witness for C6: deleting the concrete account, then fetching it as
another user, yields NotFound. -/
theorem C6_crud_access_witness :
    (get_account (delete_account wState "u@x" "id1").2 "other@x" "id1").1
      = Except.error ⟨404, "Account not found"⟩ :=
  (C6_crud_access wState "u@x" "id1" ⟨none, none, none, none⟩ 0).2.2.2.2.2.2
    "Account deleted successfully" (delete_account wState "u@x" "id1").2 (by rfl) "other@x"

/-- C10: whenever an operation returns an error, the returned state is
exactly the input state — every check precedes every mutation.  The
`get_current_user` dependency reads the session store and touches no store
by construction (it takes only the store as input and returns only the
resolved email), so the mutating handlers are the ones listed. -/
theorem C10_error_atomicity (st : St) :
    (∀ email pw fn off now e st2,
        register st email pw fn off now = (Except.error e, st2) → st2 = st)
    ∧ (∀ email pw now e st2, login st email pw now = (Except.error e, st2) → st2 = st)
    ∧ (∀ caller spec new_id now e st2,
        create_account st caller spec new_id now = (Except.error e, st2) → st2 = st)
    ∧ (∀ caller e st2, list_accounts st caller = (Except.error e, st2) → st2 = st)
    ∧ (∀ caller e st2, get_accounts_summary st caller = (Except.error e, st2) → st2 = st)
    ∧ (∀ caller account_id e st2,
        get_account st caller account_id = (Except.error e, st2) → st2 = st)
    ∧ (∀ caller account_id u now e st2,
        update_account st caller account_id u now = (Except.error e, st2) → st2 = st)
    ∧ (∀ caller account_id e st2,
        delete_account st caller account_id = (Except.error e, st2) → st2 = st) := by
  refine ⟨?_, ?_, ?_, ?_, ?_, ?_, ?_, ?_⟩
  · intro email pw fn off now e st2 h
    by_cases hc : (alookup st.users_db email).isSome
    · simp [register, hc] at h
      exact h.2.symm
    · simp [register, hc] at h
  · intro email pw now e st2 h
    cases hu : alookup st.users_db email with
    | none =>
      simp [login, hu] at h
      exact h.2.symm
    | some u =>
      by_cases hp : u.password ≠ pw
      · simp [login, hu, hp] at h
        exact h.2.symm
      · simp [login, hu, hp] at h
  · intro caller spec new_id now e st2 h
    simp [create_account] at h
  · intro caller e st2 h
    simp [list_accounts] at h
  · intro caller e st2 h
    simp [get_accounts_summary] at h
  · intro caller account_id e st2 h
    cases ha : alookup st.accounts_db account_id with
    | none =>
      simp [get_account, ha] at h
      exact h.2.symm
    | some a =>
      by_cases ho : a.user_email ≠ caller
      · simp [get_account, ha, ho] at h
        exact h.2.symm
      · simp [get_account, ha, ho] at h
  · intro caller account_id u now e st2 h
    cases ha : alookup st.accounts_db account_id with
    | none =>
      simp [update_account, ha] at h
      exact h.2.symm
    | some a =>
      by_cases ho : a.user_email ≠ caller
      · simp [update_account, ha, ho] at h
        exact h.2.symm
      · simp [update_account, ha, ho] at h
  · intro caller account_id e st2 h
    cases ha : alookup st.accounts_db account_id with
    | none =>
      simp [delete_account, ha] at h
      exact h.2.symm
    | some a =>
      by_cases ho : a.user_email ≠ caller
      · simp [delete_account, ha, ho] at h
        exact h.2.symm
      · simp [delete_account, ha, ho] at h

/-- Witness for C10: a failing get on the empty store returns the empty
store unchanged. -/
theorem C10_error_atomicity_witness :
    (get_account ⟨[], [], []⟩ "u@x" "nope").2 = (⟨[], [], []⟩ : St) :=
  (C10_error_atomicity ⟨[], [], []⟩).2.2.2.2.2.1 "u@x" "nope" ⟨404, "Account not found"⟩
    (get_account ⟨[], [], []⟩ "u@x" "nope").2 (by rfl)

end FinBrain
